import Mathlib

/-!
# kraicklist: `Searcher.Load` and `Searcher.Search`

A shallow embedding of `main.go`.  Go strings and byte slices are lists of
bytes.  The standard-library calls of `Load` and `main` (`os.Open`,
`gzip.NewReader`, `json.Unmarshal`, `os.Getenv`) are fields of a `World`;
`strings.Contains`, `bufio.ScanLines` and the `bufio.Scanner` token limit
are written out.
-/

namespace Kraicklist

/-! ## Data model -/

/-- A Go `string` or `[]byte`: a sequence of bytes. -/
abbrev GoString := List UInt8

/-- The bytes of a Go string literal (Go source text is UTF-8). -/
def str (s : String) : GoString := s.data.flatMap String.utf8EncodeChar

/-- The struct `Record` of `main.go`. -/
structure Record where
  ID : Int
  Title : GoString
  Content : GoString
  ThumbURL : GoString
  Tags : List GoString
  UpdatedAt : Int
  ImageURLs : List GoString
  deriving DecidableEq

/-- The struct `Searcher` of `main.go`. -/
structure Searcher where
  records : List Record
  deriving DecidableEq

/-- The two errors `Load` builds with `fmt.Errorf`; `cause` is the text of the
wrapped error. -/
inductive GoError where
  /-- "unable to open source file due: cause". -/
  | openFailed (cause : String)
  /-- "unable to initialize gzip reader due: cause". -/
  | gzipInitFailed (cause : String)
  deriving DecidableEq

/-! ## `strings.Contains` -/

/-- Go `strings.HasPrefix (s, p)`: `s` begins with `p`. -/
def HasPrefix (s p : GoString) : Bool := p.isPrefixOf s

/-- Go `strings.Index (s, substr)`: the index of the first instance of `substr`
in `s`, or `-1` if `substr` is not present in `s`. -/
def Index : GoString → GoString → Int
  | [], substr => if HasPrefix [] substr then 0 else -1
  | b :: t, substr =>
    if HasPrefix (b :: t) substr then 0
    else if Index t substr < 0 then -1
    else Index t substr + 1

/-- Go `strings.Contains (s, substr)`, which is `Index(s, substr) >= 0`. -/
def Contains (s substr : GoString) : Bool := decide (Index s substr ≥ 0)

/-- The query `q` occurs in `t` as a contiguous run of bytes. -/
def IsSubstring (q t : GoString) : Prop := ∃ pre suf : GoString, pre ++ q ++ suf = t

instance instDecidableIsSubstring (q t : GoString) : Decidable (IsSubstring q t) :=
  inferInstanceAs (Decidable (q <:+: t))

/-- The record `r` has `q` as a substring of its title or of its content. -/
def Matches (q : GoString) (r : Record) : Prop :=
  IsSubstring q r.Title ∨ IsSubstring q r.Content

instance instDecidableMatches (q : GoString) (r : Record) : Decidable (Matches q r) :=
  inferInstanceAs (Decidable (IsSubstring q r.Title ∨ IsSubstring q r.Content))

/-! ## `Searcher.Search` -/

/-- One iteration of the `range s.records` loop of `Search`. -/
def searchStep (query : GoString) (result : List Record) (record : Record) : List Record :=
  if Contains record.Title query || Contains record.Content query then
    result ++ [record]
  else
    result

/-- The method `Search` of `main.go`: the Searcher after the call, the returned
slice and the returned error (`none` is Go's `nil`). -/
def Search (s : Searcher) (query : GoString) : Searcher × List Record × Option GoError :=
  let result : List Record := []
  let result := s.records.foldl (searchStep query) result
  (s, result, none)

/-! ## `bufio.Scanner` with the `ScanLines` split function -/

/-- Go `bufio.MaxScanTokenSize`, the buffer limit of a Scanner made by
`bufio.NewScanner`. -/
def MaxScanTokenSize : Nat := 64 * 1024

/-- Go `bytes.IndexByte (data, c)`; `none` stands for `-1`. -/
def IndexByte : List UInt8 → UInt8 → Option Nat
  | [], _ => none
  | b :: rest, c => if b = c then some 0 else (IndexByte rest c).map (· + 1)

/-- Go `dropCR` of package bufio: drop one terminal carriage return. -/
def dropCR (data : List UInt8) : List UInt8 :=
  if data.getLast? = some 13 then data.dropLast else data

/-- Go `bufio.ScanLines (data, atEOF)`: the advance and the token; a `none`
token asks for more data. -/
def ScanLines (data : List UInt8) (atEOF : Bool) : Nat × Option (List UInt8) :=
  if atEOF && data.length == 0 then (0, none)
  else
    match IndexByte data 10 with
    | some i => (i + 1, some (dropCR (data.take i)))
    | none => if atEOF then (data.length, some (dropCR data)) else (0, none)

/-- A `bufio.Scanner` over a reader: `input` is what the reader still delivers
(bytes not yet passed as tokens), `token` the last token (`cs.Bytes()`). -/
structure Scanner where
  input : List UInt8
  maxTokenSize : Nat
  token : List UInt8

/-- Go `bufio.NewScanner (r)` for a reader that delivers `input`. -/
def NewScanner (input : List UInt8) : Scanner :=
  { input := input, maxTokenSize := MaxScanTokenSize, token := [] }

/-- Go `(*Scanner).Scan`.  The buffer holds at most `maxTokenSize` bytes of the
unread input; the split function sees the end of the input when the whole
rest fits with room to spare.  Without a token the scan stops: at the end of
the input, or with `ErrTooLong` when the full buffer holds no line end.  A
last line of exactly `maxTokenSize` bytes without a line end counts as too
long (the reader reporting its end on a read of its own). -/
def Scanner.Scan (cs : Scanner) : Bool × Scanner :=
  let buf := cs.input.take cs.maxTokenSize
  let atEOF := decide (cs.input.length < cs.maxTokenSize)
  match ScanLines buf atEOF with
  | (advance, some token) => (true, { cs with input := cs.input.drop advance, token := token })
  | (_, none) => (false, { cs with input := [], token := [] })

/-! ## `Searcher.Load` -/

/-- The reader `gzip.NewReader` returns, by what `Read` does: it delivers
`payload` and then ends, with `io.EOF` when the compressed body and its
trailer were sound (`readErr = none`) and with an error otherwise (corrupt
or truncated body, wrong checksum). -/
structure GzipReader where
  payload : List UInt8
  readErr : Option String

/-- The standard-library calls of `Load` and `main`, as functions. -/
structure World where
  /-- The call `os.Open (path)`: the content of the file, or the error. -/
  osOpen : GoString → Except String (List UInt8)
  /-- The call `gzip.NewReader (file)`: reads and checks the gzip header only. -/
  gzipNewReader : List UInt8 → Except String GzipReader
  /-- The call `json.Unmarshal (data, &r)` on a zero `Record`: `r` after the
  call, or the error. -/
  jsonUnmarshal : List UInt8 → Except String Record
  /-- The call `os.Getenv (key)`: the empty string when the variable is unset. -/
  getenv : GoString → GoString

/-- The body of the `for cs.Scan()` loop of `Load`. -/
def loadBody (w : World) (records : List Record) (line : List UInt8) : List Record :=
  match w.jsonUnmarshal line with
  | .error _ => records
  | .ok r => records ++ [r]

/-- The `for cs.Scan()` loop of `Load`, with a bound on the iterations. -/
def loadLoop (w : World) : Nat → Scanner → List Record → List Record
  | 0, _, records => records
  | fuel + 1, cs, records =>
    match cs.Scan with
    | (false, _) => records
    | (true, cs) => loadLoop w fuel cs (loadBody w records cs.token)

/-- The method `Load` of `main.go`: the Searcher after the call and the
returned error.  Every `Scan` that returns true consumes a byte, so
`payload.length + 1` iterations reach the end of the loop. -/
def Load (w : World) (s : Searcher) (filepath : GoString) : Searcher × Option GoError :=
  match w.osOpen filepath with
  | .error err => (s, some (.openFailed err))
  | .ok file =>
    match w.gzipNewReader file with
    | .error err => (s, some (.gzipInitFailed err))
    | .ok reader =>
      let records : List Record := []
      let cs := NewScanner reader.payload
      let records := loadLoop w (reader.payload.length + 1) cs records
      ({ s with records := records }, none)

/-! ## `main`: the listen address -/

/-- The function `main` up to `http.ListenAndServe`: the address it listens on,
or the error `log.Fatalf` ends the process with. -/
def mainListenAddr (w : World) : Except GoError GoString :=
  let searcher : Searcher := { records := [] }
  let (_, err) := Load w searcher (str "data.gz")
  match err with
  | some e => .error e
  | none =>
    let port := w.getenv (str "PORT")
    let port := if err ≠ none then str "3000" else port
    .ok (str ":" ++ port)

/-! ## Lines of the decompressed content -/

/-- The lines of `data` as they stand: the runs of bytes between line ends
(byte 10), each without its line end; a last run without a line end is a line
when it is not empty. -/
def rawLines : List UInt8 → List (List UInt8)
  | [] => []
  | b :: rest =>
    if b = 10 then [] :: rawLines rest
    else
      match rawLines rest with
      | [] => [[b]]
      | l :: ls => (b :: l) :: ls

/-- The lines of `data` as `bufio.ScanLines` hands them out: each raw line
without one terminal carriage return. -/
def Lines (data : List UInt8) : List (List UInt8) := (rawLines data).map dropCR

/-- The lines a Scanner with buffer limit `maxTokenSize` hands out before it
stops: those before the first raw line that does not fit. -/
def scannedLines (maxTokenSize : Nat) (data : List UInt8) : List (List UInt8) :=
  ((rawLines data).takeWhile (fun l => decide (l.length < maxTokenSize))).map dropCR

/-- Every raw line of `data` fits, with its line end, a buffer of `maxTokenSize`
bytes. -/
def LinesFit (maxTokenSize : Nat) (data : List UInt8) : Prop :=
  ∀ l ∈ rawLines data, l.length < maxTokenSize

/-- The Record of a line that is valid JSON for a Record, `none` for a line
`json.Unmarshal` rejects. -/
def parseLine (w : World) (line : List UInt8) : Option Record :=
  match w.jsonUnmarshal line with
  | .error _ => none
  | .ok r => some r

/-- The content `file` is a valid gzip stream: the header is accepted and the
body reads to its end without an error. -/
def ValidGzip (w : World) (file : List UInt8) : Prop :=
  ∃ reader, w.gzipNewReader file = .ok reader ∧ reader.readErr = none

/-! ## Example data: the dataset of the specification -/

/-- The record of the first example line. -/
def rec1 : Record :=
  { ID := 1, Title := str "Blue Car", Content := str "fast", ThumbURL := [], Tags := [],
    UpdatedAt := 0, ImageURLs := [] }

/-- The record of the third example line. -/
def rec2 : Record :=
  { ID := 2, Title := str "Red Bus", Content := str "Blue interior", ThumbURL := [], Tags := [],
    UpdatedAt := 0, ImageURLs := [] }

/-- A Searcher holding the two example records. -/
def demo : Searcher := { records := [rec1, rec2] }

/-- The first example line. -/
def line1 : GoString := str "\x7b\"id\":1,\"title\":\"Blue Car\",\"content\":\"fast\"\x7d"

/-- The second example line, which is no JSON. -/
def line2 : GoString := str "not-json"

/-- The third example line. -/
def line3 : GoString :=
  str "\x7b\"id\":2,\"title\":\"Red Bus\",\"content\":\"Blue interior\"\x7d"

/-- What `json.Unmarshal` returns on the example lines; every other input of the
examples below (`not-json`, a run of the letter x) is no JSON either. -/
def exampleUnmarshal (data : List UInt8) : Except String Record :=
  if data = line1 then .ok rec1
  else if data = line3 then .ok rec2
  else .error "invalid character"

/-- The content of the example file `data.gz`, kept abstract: the gzip header
bytes stand for it. -/
def gzFile : List UInt8 := [31, 139, 8]

/-- A world with one file, `data.gz`, that decompresses to `payload` and ends
as `readErr` says, and with the variable `PORT` set to `port` (empty: unset). -/
def worldOf (payload : List UInt8) (readErr : Option String) (port : GoString) : World :=
  { osOpen := fun p =>
      if p = str "data.gz" then .ok gzFile else .error "no such file or directory"
    gzipNewReader := fun f =>
      if f = gzFile then .ok { payload := payload, readErr := readErr }
      else .error "gzip: invalid header"
    jsonUnmarshal := exampleUnmarshal
    getenv := fun k => if k = str "PORT" then port else [] }

/-- The three example lines, each with its line end. -/
def examplePayload : List UInt8 := line1 ++ 10 :: (line2 ++ 10 :: (line3 ++ [10]))

/-- A line of 65536 letters x: with its line end one byte more than the buffer
of the Scanner holds. -/
def longLine : List UInt8 := List.replicate 65536 120

/-- The long line, then the first example line. -/
def longFirstPayload : List UInt8 := longLine ++ 10 :: line1

/-- The first example line, the long line, the third example line. -/
def longMiddlePayload : List UInt8 := line1 ++ 10 :: (longLine ++ 10 :: line3)

/-! ## Lemmas: `strings.Contains` -/

theorem HasPrefix_iff (s p : GoString) : HasPrefix s p = true ↔ p <+: s := by
  unfold HasPrefix
  exact List.isPrefixOf_iff_prefix

theorem Index_nonneg_iff (s substr : GoString) : 0 ≤ Index s substr ↔ substr <:+: s := by
  induction s with
  | nil =>
    unfold Index
    by_cases h : HasPrefix [] substr = true
    · simp only [h, if_true, le_refl, true_iff]
      exact ((HasPrefix_iff _ _).1 h).isInfix
    · simp only [h, Bool.false_eq_true, if_false]
      constructor
      · intro h0; omega
      · intro hi
        exact absurd ((HasPrefix_iff _ _).2 (List.infix_nil.1 hi ▸ List.prefix_refl _)) h
  | cons b t ih =>
    unfold Index
    by_cases h : HasPrefix (b :: t) substr = true
    · simp only [h, if_true, le_refl, true_iff]
      exact ((HasPrefix_iff _ _).1 h).isInfix
    · have hp : ¬ substr <+: b :: t := fun hp => h ((HasPrefix_iff _ _).2 hp)
      simp only [h, Bool.false_eq_true, if_false]
      rw [List.infix_cons_iff]
      by_cases hlt : Index t substr < 0
      · simp only [hlt, if_true]
        constructor
        · intro h0; omega
        · rintro (h1 | h1)
          · exact absurd h1 hp
          · have := ih.2 h1
            omega
      · simp only [hlt, if_false]
        constructor
        · intro _
          exact Or.inr (ih.1 (by omega))
        · intro _
          omega

theorem Contains_iff (s substr : GoString) : Contains s substr = true ↔ IsSubstring substr s := by
  unfold Contains IsSubstring
  rw [decide_eq_true_iff, ge_iff_le, Index_nonneg_iff]
  rfl

theorem Contains_empty (s : GoString) : Contains s [] = true :=
  (Contains_iff s []).2 ⟨[], s, by simp⟩

/-! ## Lemmas: the loop of `Search` -/

theorem searchTest_iff (q : GoString) (r : Record) :
    (Contains r.Title q || Contains r.Content q) = true ↔ Matches q r := by
  unfold Matches
  rw [Bool.or_eq_true, Contains_iff, Contains_iff]

theorem foldl_searchStep (q : GoString) (rs acc : List Record) :
    rs.foldl (searchStep q) acc = acc ++ rs.filter (fun r => decide (Matches q r)) := by
  induction rs generalizing acc with
  | nil => simp
  | cons r rs ih =>
    rw [List.foldl_cons, ih]
    unfold searchStep
    by_cases h : (Contains r.Title q || Contains r.Content q) = true
    · have hm : Matches q r := (searchTest_iff q r).1 h
      simp [h, hm]
    · have hm : ¬ Matches q r := fun hm => h ((searchTest_iff q r).2 hm)
      simp [h, hm]

theorem Search_result (s : Searcher) (q : GoString) :
    (Search s q).2.1 = s.records.filter (fun r => decide (Matches q r)) := by
  unfold Search
  simp [foldl_searchStep]

/-! ## Lemmas: lines -/

theorem IndexByte_of_not_mem (l : List UInt8) (c : UInt8) (h : c ∉ l) : IndexByte l c = none := by
  induction l with
  | nil => rfl
  | cons b t ih =>
    have hb : b ≠ c := fun e => h (e ▸ List.mem_cons_self _ _)
    have ht : c ∉ t := fun m => h (List.mem_cons_of_mem _ m)
    simp [IndexByte, hb, ih ht]

theorem IndexByte_append_cons (pre rest : List UInt8) (c : UInt8) (h : c ∉ pre) :
    IndexByte (pre ++ c :: rest) c = some pre.length := by
  induction pre with
  | nil => simp [IndexByte]
  | cons b t ih =>
    have hb : b ≠ c := fun e => h (e ▸ List.mem_cons_self _ _)
    have ht : c ∉ t := fun m => h (List.mem_cons_of_mem _ m)
    simp [IndexByte, hb, ih ht]

theorem rawLines_append_newline (pre rest : List UInt8) (h : (10 : UInt8) ∉ pre) :
    rawLines (pre ++ 10 :: rest) = pre :: rawLines rest := by
  induction pre with
  | nil => simp [rawLines]
  | cons b t ih =>
    have hb : b ≠ 10 := fun e => h (e ▸ List.mem_cons_self _ _)
    have ht : (10 : UInt8) ∉ t := fun m => h (List.mem_cons_of_mem _ m)
    simp [rawLines, hb, ih ht]

theorem rawLines_of_not_mem (l : List UInt8) (h : (10 : UInt8) ∉ l) (hne : l ≠ []) :
    rawLines l = [l] := by
  induction l with
  | nil => exact absurd rfl hne
  | cons b t ih =>
    have hb : b ≠ 10 := fun e => h (e ▸ List.mem_cons_self _ _)
    have ht : (10 : UInt8) ∉ t := fun m => h (List.mem_cons_of_mem _ m)
    cases t with
    | nil => simp [rawLines, hb]
    | cons c t2 =>
      have := ih ht (by simp)
      rw [rawLines, this]
      simp [hb]

/-- What one `Scan` does on an input whose first line ends with a line end. -/
theorem Scan_newline (pre rest tok : List UInt8) (m : Nat) (h : (10 : UInt8) ∉ pre) :
    Scanner.Scan { input := pre ++ 10 :: rest, maxTokenSize := m, token := tok } =
      if pre.length < m then
        (true, { input := rest, maxTokenSize := m, token := dropCR pre })
      else (false, { input := [], maxTokenSize := m, token := [] }) := by
  unfold Scanner.Scan ScanLines
  by_cases hm : pre.length < m
  · have htake : List.take m (pre ++ 10 :: rest) =
        pre ++ 10 :: List.take (m - pre.length - 1) rest := by
      rw [List.take_append_eq_append_take, List.take_of_length_le (Nat.le_of_lt hm)]
      congr 1
      have : m - pre.length = (m - pre.length - 1) + 1 := by omega
      rw [this, List.take_succ_cons]
      simp
    simp only [htake, IndexByte_append_cons _ _ _ h, hm, if_true]
    simp
  · have htake : List.take m (pre ++ 10 :: rest) = List.take m pre :=
      List.take_append_of_le_length (by omega)
    have hnm : (10 : UInt8) ∉ List.take m pre := fun hx => h (List.mem_of_mem_take hx)
    have hlen : ¬ ((pre ++ 10 :: rest).length < m) := by
      simp only [List.length_append, List.length_cons]; omega
    have hlen2 : ¬ (pre.length + (rest.length + 1) < m) := by omega
    simp only [htake, IndexByte_of_not_mem _ _ hnm, hm, if_false]
    simp [hlen2]

/-- What one `Scan` does on an input without a line end. -/
theorem Scan_last (l tok : List UInt8) (m : Nat) (h : (10 : UInt8) ∉ l) (hne : l ≠ []) :
    Scanner.Scan { input := l, maxTokenSize := m, token := tok } =
      if l.length < m then
        (true, { input := [], maxTokenSize := m, token := dropCR l })
      else (false, { input := [], maxTokenSize := m, token := [] }) := by
  unfold Scanner.Scan ScanLines
  have hnm : (10 : UInt8) ∉ List.take m l := fun hx => h (List.mem_of_mem_take hx)
  have hpos : 0 < l.length := List.length_pos.2 hne
  by_cases hm : l.length < m
  · have htake : List.take m l = l := List.take_of_length_le (Nat.le_of_lt hm)
    simp only [htake, IndexByte_of_not_mem _ _ h, hm, if_true]
    have : ¬ (l.length = 0) := by omega
    simp [this]
  · simp only [IndexByte_of_not_mem _ _ hnm, hm, if_false]
    simp

theorem Scan_nil (tok : List UInt8) (m : Nat) :
    Scanner.Scan { input := [], maxTokenSize := m, token := tok } =
      (false, { input := [], maxTokenSize := m, token := [] }) := by
  unfold Scanner.Scan ScanLines
  by_cases hm : 0 < m
  · simp [hm]
  · have : m = 0 := by omega
    subst this
    simp [IndexByte]

/-! ## Lemmas: the loop of `Load` -/

theorem scannedLines_nil (m : Nat) : scannedLines m [] = [] := by
  simp [scannedLines, rawLines]

theorem scannedLines_newline (m : Nat) (pre rest : List UInt8) (h : (10 : UInt8) ∉ pre) :
    scannedLines m (pre ++ 10 :: rest) =
      if pre.length < m then dropCR pre :: scannedLines m rest else [] := by
  unfold scannedLines
  rw [rawLines_append_newline _ _ h, List.takeWhile_cons]
  by_cases hm : pre.length < m <;> simp [hm]

theorem scannedLines_last (m : Nat) (l : List UInt8) (h : (10 : UInt8) ∉ l) (hne : l ≠ []) :
    scannedLines m l = if l.length < m then [dropCR l] else [] := by
  unfold scannedLines
  rw [rawLines_of_not_mem _ h hne, List.takeWhile_cons]
  by_cases hm : l.length < m <;> simp [hm]

theorem scannedLines_of_fit (m : Nat) (data : List UInt8) (h : LinesFit m data) :
    scannedLines m data = Lines data := by
  unfold scannedLines Lines
  congr 1
  rw [List.takeWhile_eq_self_iff]
  intro l hl
  simpa using h l hl

/-- The loop of `Load` passes the scanned lines, in order, to its body. -/
theorem loadLoop_eq (w : World) (fuel : Nat) :
    ∀ (input tok : List UInt8) (m : Nat) (acc : List Record), input.length < fuel →
      loadLoop w fuel { input := input, maxTokenSize := m, token := tok } acc =
        (scannedLines m input).foldl (loadBody w) acc := by
  induction fuel with
  | zero => intro input tok m acc h; omega
  | succ fuel ih =>
    intro input tok m acc hlen
    by_cases hmem : (10 : UInt8) ∈ input
    · obtain ⟨pre, rest, rfl, hpre⟩ := List.eq_append_cons_of_mem hmem
      rw [scannedLines_newline _ _ _ hpre]
      unfold loadLoop
      rw [Scan_newline _ _ _ _ hpre]
      by_cases hm : pre.length < m
      · simp only [hm, if_true, List.foldl_cons]
        apply ih
        simp only [List.length_append, List.length_cons] at hlen
        omega
      · simp only [hm, if_false, List.foldl_nil]
    · by_cases hne : input = []
      · subst hne
        unfold loadLoop
        rw [Scan_nil, scannedLines_nil]
        rfl
      · rw [scannedLines_last _ _ hmem hne]
        unfold loadLoop
        rw [Scan_last _ _ _ hmem hne]
        have hpos : 0 < input.length := List.length_pos.2 hne
        by_cases hm : input.length < m
        · simp only [hm, if_true, List.foldl_cons, List.foldl_nil]
          rw [ih [] _ m _ (by simp; omega), scannedLines_nil]
          rfl
        · simp only [hm, if_false, List.foldl_nil]

theorem foldl_loadBody (w : World) (ls : List (List UInt8)) (acc : List Record) :
    ls.foldl (loadBody w) acc = acc ++ ls.filterMap (parseLine w) := by
  induction ls generalizing acc with
  | nil => simp
  | cons l ls ih =>
    rw [List.foldl_cons, ih, List.filterMap_cons]
    unfold loadBody parseLine
    cases w.jsonUnmarshal l <;> simp

/-- `Load` on a file that opens and whose gzip header is sound. -/
theorem Load_ok (w : World) (s : Searcher) (path file : List UInt8) (reader : GzipReader)
    (hopen : w.osOpen path = .ok file) (hgz : w.gzipNewReader file = .ok reader) :
    Load w s path =
      ({ records := (scannedLines MaxScanTokenSize reader.payload).filterMap (parseLine w) },
        none) := by
  unfold Load
  simp only [hopen, hgz, NewScanner]
  rw [loadLoop_eq w _ _ _ _ _ (Nat.lt_succ_self _), foldl_loadBody]
  simp

/-! ## Lemmas: the examples -/

theorem length_filterMap_add (f : List UInt8 → Option Record) (ls : List (List UInt8)) :
    (ls.filterMap f).length + (ls.filter (fun l => (f l).isNone)).length = ls.length := by
  induction ls with
  | nil => rfl
  | cons l ls ih =>
    rw [List.filterMap_cons, List.filter_cons]
    cases h : f l with
    | none => simp only [Option.isNone_none, if_true, List.length_cons]; omega
    | some r => simp only [Option.isNone_some, Bool.false_eq_true, if_false, List.length_cons]; omega

theorem dropCR_of_not_mem (l : List UInt8) (h : (13 : UInt8) ∉ l) : dropCR l = l := by
  unfold dropCR
  have : l.getLast? ≠ some 13 := fun e => h (List.mem_of_getLast?_eq_some e)
  simp [this]

theorem longLine_length : longLine.length = 65536 := List.length_replicate _ _

theorem not_mem_longLine (c : UInt8) (h : c ≠ 120) : c ∉ longLine := by
  intro hc
  exact h (List.eq_of_mem_replicate hc)

theorem parseLine_longLine (payload : List UInt8) (e : Option String) (p : GoString) :
    parseLine (worldOf payload e p) longLine = none := by
  have h1 : longLine ≠ line1 := by
    intro h
    have := congrArg List.length h
    rw [longLine_length] at this
    revert this
    decide
  have h3 : longLine ≠ line3 := by
    intro h
    have := congrArg List.length h
    rw [longLine_length] at this
    revert this
    decide
  simp [parseLine, worldOf, exampleUnmarshal, h1, h3]

theorem rawLines_examplePayload : rawLines examplePayload = [line1, line2, line3] := by
  decide

theorem examplePayload_fits : LinesFit MaxScanTokenSize examplePayload := by
  unfold LinesFit
  rw [rawLines_examplePayload]
  decide

theorem rawLines_longFirst : rawLines longFirstPayload = [longLine, line1] := by
  unfold longFirstPayload
  rw [rawLines_append_newline _ _ (not_mem_longLine 10 (by decide)),
    rawLines_of_not_mem line1 (by decide) (by decide)]

theorem rawLines_longMiddle : rawLines longMiddlePayload = [line1, longLine, line3] := by
  unfold longMiddlePayload
  rw [rawLines_append_newline _ _ (by decide),
    rawLines_append_newline _ _ (not_mem_longLine 10 (by decide)),
    rawLines_of_not_mem line3 (by decide) (by decide)]

theorem longLine_too_long : ¬ longLine.length < MaxScanTokenSize := by
  rw [longLine_length]
  decide

theorem Load_longFirst (s : Searcher) :
    Load (worldOf longFirstPayload none []) s (str "data.gz") = ({ records := [] }, none) := by
  rw [Load_ok (worldOf longFirstPayload none []) s (str "data.gz") gzFile
    { payload := longFirstPayload, readErr := none } rfl rfl]
  simp only [scannedLines, rawLines_longFirst, List.takeWhile_cons, longLine_too_long]
  rfl

theorem Load_longMiddle (s : Searcher) :
    Load (worldOf longMiddlePayload none []) s (str "data.gz") = ({ records := [rec1] }, none) := by
  rw [Load_ok (worldOf longMiddlePayload none []) s (str "data.gz") gzFile
    { payload := longMiddlePayload, readErr := none } rfl rfl]
  have h1 : line1.length < MaxScanTokenSize := by decide
  have hd : dropCR line1 = line1 := by decide
  simp only [scannedLines, rawLines_longMiddle, List.takeWhile_cons, longLine_too_long, h1]
  simp only [decide_True, decide_False, if_true, Bool.false_eq_true, if_false, List.map_cons,
    List.map_nil, hd]
  rfl

theorem Load_example (s : Searcher) (e : Option String) (p : GoString) :
    Load (worldOf examplePayload e p) s (str "data.gz") = ({ records := [rec1, rec2] }, none) := by
  rw [Load_ok (worldOf examplePayload e p) s (str "data.gz") gzFile
    { payload := examplePayload, readErr := e } rfl rfl,
    scannedLines_of_fit _ _ examplePayload_fits]
  have : (Lines examplePayload).filterMap (parseLine (worldOf examplePayload e p)) =
      [rec1, rec2] := by
    unfold Lines
    rw [rawLines_examplePayload]
    have hw : parseLine (worldOf examplePayload e p) = parseLine (worldOf [] none []) := rfl
    rw [hw]
    decide
  rw [this]

/-! ## `Search`: the claims -/

/-- C1: a record is in the result of `Search(q)` exactly when it is in the
collection and `q` is a contiguous, byte-exact substring of its title or of its
content; on the two example records "Blue" finds both, "Bus" only the second
and "blue" none. -/
theorem Search_sound_complete :
    (∀ (s : Searcher) (q : GoString) (r : Record),
      r ∈ (Search s q).2.1 ↔
        r ∈ s.records ∧ (IsSubstring q r.Title ∨ IsSubstring q r.Content)) ∧
    (Search demo (str "Blue")).2.1 = [rec1, rec2] ∧
    (Search demo (str "Bus")).2.1 = [rec2] ∧
    (Search demo (str "blue")).2.1 = [] := by
  refine ⟨?_, by decide, by decide, by decide⟩
  intro s q r
  rw [Search_result, List.mem_filter, decide_eq_true_iff]
  rfl

/-- C2: the result of `Search(q)` is the collection with the records that do not
match deleted: the matching positions in their order, one element for each,
also for a record that matches on both fields. -/
theorem Search_is_filter (s : Searcher) (q : GoString) :
    (Search s q).2.1 = s.records.filter (fun r => decide (Matches q r)) ∧
    List.Sublist (Search s q).2.1 s.records ∧
    (Search s q).2.1.length = s.records.countP (fun r => decide (Matches q r)) ∧
    (Search { records := [rec2, rec2, rec1] } (str "B")).2.1 = [rec2, rec2, rec1] := by
  refine ⟨Search_result s q, ?_, ?_, by decide⟩
  · rw [Search_result]
    exact List.filter_sublist _
  · rw [Search_result, List.countP_eq_length_filter]

/-- C6: `Search` returns a nil error for every collection and every query, the
empty one too, and an empty sequence when no record has the query as a
substring of its title or content. -/
theorem Search_never_fails (s : Searcher) (q : GoString) :
    (Search s q).2.2 = none ∧ (Search s (str "")).2.2 = none ∧
    ((∀ r ∈ s.records, ¬ IsSubstring q r.Title ∧ ¬ IsSubstring q r.Content) →
      (Search s q).2.1 = []) := by
  refine ⟨rfl, rfl, ?_⟩
  intro h
  rw [Search_result, List.filter_eq_nil_iff]
  intro r hr
  have := h r hr
  simp [Matches, this.1, this.2]

/-- The witness of C6: "purple" matches neither example record. -/
theorem Search_never_fails_witness :
    (∀ r ∈ demo.records, ¬ IsSubstring (str "purple") r.Title ∧
        ¬ IsSubstring (str "purple") r.Content) ∧
      (Search demo (str "purple")).2.2 = none ∧ (Search demo (str "purple")).2.1 = [] := by
  have hno : ∀ r ∈ demo.records, ¬ IsSubstring (str "purple") r.Title ∧
      ¬ IsSubstring (str "purple") r.Content := by
    intro r hr
    have hc : Contains r.Title (str "purple") = false ∧
        Contains r.Content (str "purple") = false := by
      revert r
      decide
    constructor
    · intro h
      have := (Contains_iff _ _).2 h
      simp [hc.1] at this
    · intro h
      have := (Contains_iff _ _).2 h
      simp [hc.2] at this
  exact ⟨hno, (Search_never_fails demo (str "purple")).1,
    (Search_never_fails demo (str "purple")).2.2 hno⟩

/-- C7: on a non-empty collection `Search("")` returns the whole collection in
its order. -/
theorem Search_empty_query (s : Searcher) (_hne : s.records ≠ []) :
    (Search s (str "")).2.1 = s.records := by
  rw [Search_result, List.filter_eq_self]
  intro r _
  have : Matches (str "") r := Or.inl ((Contains_iff _ _).1 (Contains_empty r.Title))
  simp [this]

/-- The witness of C7: the two example records. -/
theorem Search_empty_query_witness :
    demo.records ≠ [] ∧ (Search demo (str "")).2.1 = demo.records :=
  ⟨by decide, Search_empty_query demo (by decide)⟩

/-- C9: `Search` leaves the Searcher as it was, so a second `Search` with the same
query returns the same result and error as the first. -/
theorem Search_read_only (s : Searcher) (q : GoString) :
    (Search s q).1 = s ∧ (Search s q).1.records = s.records ∧
    (Search (Search s q).1 q).2 = (Search s q).2 :=
  ⟨rfl, rfl, rfl⟩

/-! ## `Load`: the claims -/

/-- C3, amended: when the file opens, its gzip header is accepted and every line
of the decompressed content fits the buffer of the Scanner, `Load` returns no
error and stores the Records of the valid lines in the order of the lines:
`N - M` Records for `N` lines of which `M` are not valid JSON for a Record. -/
theorem Load_valid_lines (w : World) (s : Searcher) (path file : List UInt8)
    (reader : GzipReader) (hopen : w.osOpen path = .ok file)
    (hgz : w.gzipNewReader file = .ok reader)
    (hfit : LinesFit MaxScanTokenSize reader.payload) :
    (Load w s path).2 = none ∧
    (Load w s path).1.records = (Lines reader.payload).filterMap (parseLine w) ∧
    (Load w s path).1.records.length =
      (Lines reader.payload).length -
        ((Lines reader.payload).filter (fun l => (parseLine w l).isNone)).length := by
  rw [Load_ok w s path file reader hopen hgz, scannedLines_of_fit _ _ hfit]
  refine ⟨rfl, rfl, ?_⟩
  have := length_filterMap_add (parseLine w) (Lines reader.payload)
  simp only
  omega

/-- The witness of C3: the three example lines give the Records with ids 1 and 2,
in that order. -/
theorem Load_valid_lines_witness :
    LinesFit MaxScanTokenSize examplePayload ∧
    Lines examplePayload = [line1, line2, line3] ∧
    (Load (worldOf examplePayload none []) { records := [] } (str "data.gz")).2 = none ∧
    (Load (worldOf examplePayload none []) { records := [] } (str "data.gz")).1.records =
      [rec1, rec2] ∧
    [rec1, rec2].map Record.ID = [1, 2] := by
  have h := Load_valid_lines (worldOf examplePayload none []) { records := [] } (str "data.gz")
    gzFile { payload := examplePayload, readErr := none } rfl rfl examplePayload_fits
  refine ⟨examplePayload_fits, by decide, h.1, ?_, by decide⟩
  rw [h.2.1]
  decide

/-- C3 as stated fails: a content of two lines, the first one of 65536 bytes and no
JSON, the second one valid, has `N - M = 1`, and `Load` stores no Record. -/
theorem Load_long_first_line_counterexample :
    (Lines longFirstPayload).length = 2 ∧
    ((Lines longFirstPayload).filter
      (fun l => (parseLine (worldOf longFirstPayload none []) l).isNone)).length = 1 ∧
    (Lines longFirstPayload).filterMap (parseLine (worldOf longFirstPayload none [])) = [rec1] ∧
    Load (worldOf longFirstPayload none []) { records := [] } (str "data.gz") =
      ({ records := [] }, none) := by
  have hL : Lines longFirstPayload = [longLine, line1] := by
    unfold Lines
    rw [rawLines_longFirst, List.map_cons, List.map_cons, List.map_nil,
      dropCR_of_not_mem longLine (not_mem_longLine 13 (by decide)),
      dropCR_of_not_mem line1 (by decide)]
  have h1 : parseLine (worldOf longFirstPayload none []) line1 = some rec1 := by
    have hw : parseLine (worldOf longFirstPayload none []) = parseLine (worldOf [] none []) := rfl
    rw [hw]
    decide
  have h0 := parseLine_longLine longFirstPayload none []
  refine ⟨by rw [hL]; rfl, ?_, ?_, Load_longFirst _⟩
  · rw [hL, List.filter_cons, List.filter_cons, List.filter_nil, h0, h1]
    rfl
  · rw [hL, List.filterMap_cons, List.filterMap_cons, List.filterMap_nil, h0, h1]

/-- C4, amended: when the file opens and its gzip header is accepted, `Load`
returns no error; and a line that fits the buffer of the Scanner and is no
valid JSON for a Record is skipped: it adds nothing, and a later valid line
still gives its Record, after those of the lines before it, when no line up to
that one exceeds the buffer. -/
theorem Load_skips_unparsable_line (w : World) (s : Searcher) (path file : List UInt8)
    (reader : GzipReader) (hopen : w.osOpen path = .ok file)
    (hgz : w.gzipNewReader file = .ok reader) :
    (Load w s path).2 = none ∧
    ∀ (before mid after : List (List UInt8)) (bad good : List UInt8) (r : Record),
      rawLines reader.payload = before ++ bad :: (mid ++ good :: after) →
      (∀ l ∈ before ++ bad :: (mid ++ [good]), l.length < MaxScanTokenSize) →
      parseLine w (dropCR bad) = none →
      parseLine w (dropCR good) = some r →
      ∃ tail, (Load w s path).1.records =
        (before.map dropCR).filterMap (parseLine w) ++
          ((mid.map dropCR).filterMap (parseLine w) ++ r :: tail) := by
  rw [Load_ok w s path file reader hopen hgz]
  refine ⟨rfl, ?_⟩
  intro before mid after bad good r hsplit hfit hbad hgood
  refine ⟨((after.takeWhile (fun l => decide (l.length < MaxScanTokenSize))).map
    dropCR).filterMap (parseLine w), ?_⟩
  have hre : rawLines reader.payload = (before ++ bad :: (mid ++ [good])) ++ after := by
    rw [hsplit]; simp
  have htw : (rawLines reader.payload).takeWhile (fun l => decide (l.length < MaxScanTokenSize)) =
      (before ++ bad :: (mid ++ [good])) ++
        after.takeWhile (fun l => decide (l.length < MaxScanTokenSize)) := by
    rw [hre]
    apply List.takeWhile_append_of_pos
    intro l hl
    simpa using hfit l hl
  simp only [scannedLines, htw, List.map_append, List.map_cons, List.map_nil,
    List.filterMap_append, List.filterMap_cons, List.filterMap_nil, hbad, hgood]
  simp

/-- The witness of C4: in the three example lines `not-json` is skipped and the
third line still gives its Record. -/
theorem Load_skips_unparsable_line_witness :
    rawLines examplePayload = [line1] ++ line2 :: ([] ++ line3 :: []) ∧
    parseLine (worldOf examplePayload none []) (dropCR line2) = none ∧
    parseLine (worldOf examplePayload none []) (dropCR line3) = some rec2 ∧
    (Load (worldOf examplePayload none []) { records := [] } (str "data.gz")).2 = none ∧
    ∃ tail, (Load (worldOf examplePayload none []) { records := [] } (str "data.gz")).1.records =
      ([line1].map dropCR).filterMap (parseLine (worldOf examplePayload none [])) ++
        ((([] : List (List UInt8)).map dropCR).filterMap
          (parseLine (worldOf examplePayload none [])) ++ rec2 :: tail) := by
  have hw : parseLine (worldOf examplePayload none []) = parseLine (worldOf [] none []) := rfl
  have hbad : parseLine (worldOf examplePayload none []) (dropCR line2) = none := by
    rw [hw]; decide
  have hgood : parseLine (worldOf examplePayload none []) (dropCR line3) = some rec2 := by
    rw [hw]; decide
  have h := Load_skips_unparsable_line (worldOf examplePayload none []) { records := [] }
    (str "data.gz") gzFile { payload := examplePayload, readErr := none } rfl rfl
  exact ⟨rawLines_examplePayload, hbad, hgood, h.1,
    h.2 [line1] [] [] line2 line3 rec2 rawLines_examplePayload (by decide) hbad hgood⟩

/-- C4 as stated fails: after a line of 65536 bytes the scan stops; `Load` returns
no error and the valid third line gives no Record. -/
theorem Load_long_middle_line_counterexample :
    rawLines longMiddlePayload = [line1, longLine, line3] ∧
    ¬ longLine.length < MaxScanTokenSize ∧
    parseLine (worldOf longMiddlePayload none []) (dropCR line3) = some rec2 ∧
    Load (worldOf longMiddlePayload none []) { records := [] } (str "data.gz") =
      ({ records := [rec1] }, none) ∧
    rec2 ∉ (Load (worldOf longMiddlePayload none []) { records := [] } (str "data.gz")).1.records := by
  have hw : parseLine (worldOf longMiddlePayload none []) = parseLine (worldOf [] none []) := rfl
  refine ⟨rawLines_longMiddle, longLine_too_long, by rw [hw]; decide, Load_longMiddle _, ?_⟩
  rw [Load_longMiddle]
  decide

/-- C5, amended: `Load` on a path that does not open returns the open error, `Load`
on a file whose gzip header is rejected returns the gzip error, and whenever
`Load` returns an error the Searcher is as it was before the call. -/
theorem Load_error_keeps_records (w : World) (s : Searcher) (path : GoString) :
    (∀ e, w.osOpen path = .error e → Load w s path = (s, some (.openFailed e))) ∧
    (∀ file e, w.osOpen path = .ok file → w.gzipNewReader file = .error e →
      Load w s path = (s, some (.gzipInitFailed e))) ∧
    ((Load w s path).2 ≠ none → (Load w s path).1 = s) := by
  refine ⟨?_, ?_, ?_⟩
  · intro e h
    simp [Load, h]
  · intro file e h1 h2
    simp [Load, h1, h2]
  · cases h1 : w.osOpen path with
    | error e => simp [Load, h1]
    | ok file =>
      cases h2 : w.gzipNewReader file with
      | error e => simp [Load, h1, h2]
      | ok reader => simp [Load, h1, h2]

/-- The witness of C5: a path that does not exist, and a file that is no gzip
header, with the two example records loaded before. -/
theorem Load_error_keeps_records_witness :
    Load (worldOf examplePayload none []) demo (str "missing.gz") =
      (demo, some (.openFailed "no such file or directory")) ∧
    Load { worldOf examplePayload none [] with osOpen := fun _ => .ok [] } demo (str "data.gz") =
      (demo, some (.gzipInitFailed "gzip: invalid header")) := by
  have h1 := Load_error_keeps_records (worldOf examplePayload none []) demo (str "missing.gz")
  have h2 := Load_error_keeps_records
    { worldOf examplePayload none [] with osOpen := fun _ => .ok [] } demo (str "data.gz")
  exact ⟨h1.1 _ rfl, h2.2.1 [] _ rfl rfl⟩

/-- C5 as stated fails: a file with a sound gzip header whose body ends in a
checksum error is no valid gzip stream, and `Load` returns no error and
replaces the records. -/
theorem Load_corrupt_body_counterexample :
    (worldOf examplePayload (some "gzip: invalid checksum") []).osOpen (str "data.gz") =
      .ok gzFile ∧
    ¬ ValidGzip (worldOf examplePayload (some "gzip: invalid checksum") []) gzFile ∧
    Load (worldOf examplePayload (some "gzip: invalid checksum") []) { records := [rec2] }
      (str "data.gz") = ({ records := [rec1, rec2] }, none) := by
  refine ⟨rfl, ?_, Load_example _ _ _⟩
  rintro ⟨reader, h1, h2⟩
  have : reader = { payload := examplePayload, readErr := some "gzip: invalid checksum" } := by
    simp [worldOf] at h1
    exact h1.symm
  rw [this] at h2
  simp at h2

/-- C8: a second `Load` of the same file leaves the Searcher and the returned
error as the first `Load` left them; the records are replaced, not appended
to. -/
theorem Load_idempotent (w : World) (s : Searcher) (path : GoString) :
    Load w (Load w s path).1 path = Load w s path ∧
    (Load w (Load w s path).1 path).1.records = (Load w s path).1.records ∧
    (Load w (Load w s path).1 path).1.records.length = (Load w s path).1.records.length := by
  have h : Load w (Load w s path).1 path = Load w s path := by
    unfold Load
    cases h1 : w.osOpen path with
    | error e => simp [h1]
    | ok file =>
      cases h2 : w.gzipNewReader file with
      | error e => simp [h1, h2]
      | ok reader => simp [h1, h2]
  exact ⟨h, by rw [h], by rw [h]⟩

/-! ## `main`: the claim -/

/-- C10 at the failing input: with `PORT` unset and a successful `Load`, `main` listens
on ":" and not on ":3000"; with `PORT` set to 8080 it listens on ":8080". -/
theorem main_port_unset :
    (worldOf examplePayload none []).getenv (str "PORT") = str "" ∧
    (Load (worldOf examplePayload none []) { records := [] } (str "data.gz")).2 = none ∧
    mainListenAddr (worldOf examplePayload none []) = .ok (str ":") ∧
    str ":" ≠ str ":3000" ∧
    mainListenAddr (worldOf examplePayload none (str "8080")) = .ok (str ":8080") := by
  refine ⟨by decide, ?_, ?_, by decide, ?_⟩
  · rw [Load_example]
  · simp only [mainListenAddr, Load_example]
    rfl
  · simp only [mainListenAddr, Load_example]
    rfl

end Kraicklist
